import Mathlib

/-!
Verification development for the camera-lidar extrinsic calibrator
(src/calibration/camera_lidar_calibrator.py).  The Python source is shallowly
embedded below: numpy arrays become lists or finitely supported functions,
floating point numbers become exact rationals where the computation is
algebraic and reals where square roots, exponentials or trigonometric
functions occur, and Python exceptions become Option results.  Definitions
mirror the source; where a helper lives outside src/ (cv2.Rodrigues,
getGaussianKernel2D, get_boundry, the FFTKDE pipeline) it is modelled from
the specification and marked as such in its doc comment.
-/

/-- Componentwise 3-vector over an ordered field; a row of the N-by-3
point-cloud arrays, or a translation vector. -/
structure V3 (α : Type) where
  x : α
  y : α
  z : α
deriving DecidableEq

/-- Row-major 3-by-3 matrix over an ordered field; used for the rotation
matrix R and the camera intrinsics K. -/
structure M3 (α : Type) where
  a00 : α
  a01 : α
  a02 : α
  a10 : α
  a11 : α
  a12 : α
  a20 : α
  a21 : α
  a22 : α
deriving DecidableEq

variable {α : Type} [LinearOrderedField α]

/-- Matrix-vector product, the row-by-row dot products of np.matmul. -/
def M3.mulV (A : M3 α) (v : V3 α) : V3 α :=
  ⟨A.a00 * v.x + A.a01 * v.y + A.a02 * v.z,
   A.a10 * v.x + A.a11 * v.y + A.a12 * v.z,
   A.a20 * v.x + A.a21 * v.y + A.a22 * v.z⟩

/-- Componentwise vector addition. -/
def V3.add (u v : V3 α) : V3 α := ⟨u.x + v.x, u.y + v.y, u.z + v.z⟩

/-- The 3-by-3 identity matrix. -/
def idM3 : M3 α := ⟨1, 0, 0, 0, 1, 0, 0, 0, 1⟩

/-- The six extrinsic parameters tau: an axis-angle rotation vector
(tau[0:3]) and a translation vector (tau[3:6]). -/
structure Tau6 (α : Type) where
  rot : V3 α
  trans : V3 α
deriving DecidableEq

/-- Transform one frame of lidar points into the camera frame:
np.matmul(np.hstack((R, T)), homogeneous-points) row by row, which is
R * p + T for each point p (source lines 205-214). -/
def camFrameList (R : M3 α) (T : V3 α) (pc : List (V3 α)) : List (V3 α) :=
  pc.map (fun p => (R.mulV p).add T)

/-- Pinhole projection of camera-frame points: multiply by K, divide every
row by the third homogeneous coordinate, keep the first two rows
(source lines 216-220). -/
def projectPixels (K : M3 α) (cam : List (V3 α)) : List (α × α) :=
  cam.map (fun c => ((K.mulV c).x / (K.mulV c).z, (K.mulV c).y / (K.mulV c).z))

/-- in_front_of_camera_mask: camera-frame z strictly positive
(source line 224). -/
def inFrontMask (cam : List (V3 α)) : List Bool :=
  cam.map (fun c => decide (0 < c.z))

/-- inside_mask_x: pixel x within [0, img_w], both bounds inclusive
(source lines 227-229). -/
def insideXMask (W : ℕ) (pix : List (α × α)) : List Bool :=
  pix.map (fun p => decide (0 ≤ p.1) && decide (p.1 ≤ (W : α)))

/-- inside_mask_y: pixel y within [0, img_h], both bounds inclusive
(source lines 230-232). -/
def insideYMask (H : ℕ) (pix : List (α × α)) : List Bool :=
  pix.map (fun p => decide (0 ≤ p.2) && decide (p.2 ≤ (H : α)))

/-- np.logical_and of two boolean arrays. -/
def logicalAnd (a b : List Bool) : List Bool :=
  List.zipWith (fun u v => u && v) a b

/-- The per-frame projection mask: logical_and(logical_and(inside_x,
inside_y), in_front) (source lines 233-237). -/
def frameMask (W H : ℕ) (cam : List (V3 α)) (pix : List (α × α)) : List Bool :=
  logicalAnd (logicalAnd (insideXMask W pix) (insideYMask H pix)) (inFrontMask cam)

/-- The mutable calibrator state touched by project_point_cloud: the
extrinsics tau, the cached (R, T), the intrinsics K, the image size, the
per-frame input clouds and the three derived tables. -/
structure Calib (α : Type) where
  tau : Tau6 α
  R : M3 α
  T : V3 α
  K : M3 α
  imgW : ℕ
  imgH : ℕ
  pcs : List (List (V3 α))
  pointsCamFrame : List (List (V3 α))
  projectedPoints : List (List (α × α))
  projectionMask : List (List Bool)
deriving DecidableEq

/-- project_point_cloud (source lines 191-237).  It first recomputes
(R, T) from the current tau via tau_to_transform — passed here as the
codec parameter toRT because cv2.Rodrigues is external code — discards the
previous derived tables and rebuilds all three from scratch.  The source
contains no raise statement, so the embedding is a total function. -/
def project_point_cloud (toRT : Tau6 α → M3 α × V3 α) (s : Calib α) : Calib α :=
  let RT := toRT s.tau
  let cams := s.pcs.map (camFrameList RT.1 RT.2)
  let pixs := cams.map (projectPixels s.K)
  let masks := List.zipWith (frameMask s.imgW s.imgH) cams pixs
  ⟨s.tau, RT.1, RT.2, s.K, s.imgW, s.imgH, s.pcs, cams, pixs, masks⟩

/-- The three derived tables overwritten by project_point_cloud. -/
def derivedTables (s : Calib α) :
    List (List (V3 α)) × List (List (α × α)) × List (List Bool) :=
  (s.pointsCamFrame, s.projectedPoints, s.projectionMask)

/-- sum(in_frustum) across all frames. -/
def inFrustumTotal (masks : List (List Bool)) : ℕ :=
  (masks.map (fun m => List.countP (fun b => b) m)).sum

/-- Modelled from the spec: tau_to_transform at zero rotation vector, where
Rodrigues of the zero vector is the identity matrix (spec section 3: the
identity case). Used to drive the projector on concrete rational inputs. -/
def zeroRotCodec : Tau6 ℚ → M3 ℚ × V3 ℚ := fun t => (idM3, t.trans)

/-- A degenerate input for the projector: the single lidar point (0,0,5)
pushed behind the camera by the translation (0,0,-10), so that zero points
land in the frustum — far below any 10-percent-per-frame or 10,000-total
floor. -/
def badCalibEx : Calib ℚ :=
  ⟨⟨⟨0, 0, 0⟩, ⟨0, 0, -10⟩⟩, idM3, ⟨0, 0, 0⟩, idM3, 10, 10,
   [[⟨0, 0, 5⟩]], [], [], []⟩

/-- A concrete rational calibrator state used by witnesses: one frame,
two points, one in front of the camera and one behind it. -/
def witCalibA : Calib ℚ :=
  ⟨⟨⟨0, 0, 0⟩, ⟨0, 0, 1⟩⟩, idM3, ⟨0, 0, 0⟩, idM3, 8, 6,
   [[⟨1, 1, 4⟩, ⟨0, 0, -9⟩]], [], [], []⟩

/-- The same (tau, K, dims, pcs) as witCalibA but with different cached
R, T and stale non-empty derived tables. -/
def witCalibB : Calib ℚ :=
  ⟨⟨⟨0, 0, 0⟩, ⟨0, 0, 1⟩⟩, ⟨2, 0, 0, 0, 2, 0, 0, 0, 2⟩, ⟨7, 7, 7⟩, idM3, 8, 6,
   [[⟨1, 1, 4⟩, ⟨0, 0, -9⟩]], [[⟨5, 5, 5⟩]], [[(9, 9)]], [[true]]⟩

/-- Camera-frame coordinates of witCalibA's first point after projection. -/
def witCam : V3 ℚ := ⟨1, 1, 5⟩

/-- Projected pixel of witCalibA's first point. -/
def witPix : ℚ × ℚ := (1/5, 1/5)


/-- The exponent vector np.asarray([1, 1, 1, -2, -2, -2]) of ls_optimize
(source line 717): exponent 1 for the rotation slots, -2 for the
translation slots. -/
def tauOrdExps : Fin 6 → ℤ := fun i => if i.val < 3 then 1 else -2

/-- tau_ord_mags = np.power(10 * np.ones(6), exponents) (source lines
717-719): the componentwise scale vector (10, 10, 10, 1/100, 1/100,
1/100). -/
def tau_ord_mags : Fin 6 → ℚ := fun i => (10 : ℚ) ^ tauOrdExps i

/-- The pre-optimization rescale of ls_optimize: self.tau =
np.divide(self.tau, self.tau_ord_mags) (source line 757). -/
def lsPreScale (t : Fin 6 → ℚ) : Fin 6 → ℚ := fun i => t i / tau_ord_mags i

/-- The post-optimization unscale of ls_optimize: self.tau =
opt_results.x * self.tau_ord_mags (source line 768). -/
def lsPostScale (x : Fin 6 → ℚ) : Fin 6 → ℚ := fun i => x i * tau_ord_mags i

/-- The rescale the spec claims: componentwise multiplication by the
factors s = (1, 1, 1, 1/100, 1/100, 1/100). -/
def specClaimScale (t : Fin 6 → ℚ) : Fin 6 → ℚ :=
  fun i => t i * (if i.val < 3 then 1 else 1/100)

/-- The all-ones tau used as a concrete scaling counterexample. -/
def onesTau : Fin 6 → ℚ := fun _ => 1

/-- An all-zeros 1-by-6 row, np.zeros((1, 6)). -/
def zeroRow6 : Fin 6 → ℚ := fun _ => 0

/-- The numpy slice assignment row[0, :3] = m: overwrite the first three
slots of a 6-slot row with a 3-vector. -/
def writeFirstThree (r : Fin 6 → ℚ) (m : Fin 3 → ℚ) : Fin 6 → ℚ :=
  fun j => if h : j.val < 3 then m ⟨j.val, h⟩ else r j

/-- The write sequence of compute_gradient source lines 512-520 on the one
shared buffer: dxc_dtau = dyc_dtau = dzc_dtau = np.zeros((1, 6)) binds all
three names to the SAME array, so the six slice assignments (first three
slots from M[0], slot 3 to 1, first three from M[1], slot 4 to 1, first
three from M[2] — written through the name dyc_dtau, the apparent typo —
slot 5 to 1) all land in this single row. -/
def gradSharedRow (M : Fin 3 → Fin 3 → ℚ) : Fin 6 → ℚ :=
  Function.update (writeFirstThree (Function.update (writeFirstThree
    (Function.update (writeFirstThree zeroRow6 (M 0)) 3 1) (M 1)) 4 1)
    (M 2)) 5 1

/-- du/dtau as compute_gradient computes it (source lines 540-542): each
of the three pinhole partials du_dxc = fx/zc, du_dyc = 0 and
du_dzc = -(fx*xc)/zc^2 multiplies the same shared buffer. -/
def codeDuDtau (M : Fin 3 → Fin 3 → ℚ) (fx xc zc : ℚ) : Fin 6 → ℚ :=
  fun j => (fx / zc) * gradSharedRow M j + 0 * gradSharedRow M j +
    (-(fx * xc) / zc ^ 2) * gradSharedRow M j

/-- The distinct row dxc/dtau of the spec: (M[0], 1, 0, 0). -/
def specDxcDtau (M : Fin 3 → Fin 3 → ℚ) : Fin 6 → ℚ :=
  Function.update (writeFirstThree zeroRow6 (M 0)) 3 1

/-- The distinct row dyc/dtau of the spec: (M[1], 0, 1, 0). -/
def specDycDtau (M : Fin 3 → Fin 3 → ℚ) : Fin 6 → ℚ :=
  Function.update (writeFirstThree zeroRow6 (M 1)) 4 1

/-- The distinct row dzc/dtau of the spec: (M[2], 0, 0, 1). -/
def specDzcDtau (M : Fin 3 → Fin 3 → ℚ) : Fin 6 → ℚ :=
  Function.update (writeFirstThree zeroRow6 (M 2)) 5 1

/-- du/dtau built from the three distinct rows, as the claim states it. -/
def specDuDtau (M : Fin 3 → Fin 3 → ℚ) (fx xc zc : ℚ) : Fin 6 → ℚ :=
  fun j => (fx / zc) * specDxcDtau M j + 0 * specDycDtau M j +
    (-(fx * xc) / zc ^ 2) * specDzcDtau M j

/-- A concrete 3-by-3 M (= -skew(R p) J_L) with three distinct rows. -/
def gradMEx : Fin 3 → Fin 3 → ℚ := fun i j => if i = j then 1 else 0

/-- Python int() truncation toward zero, applied by numpy astype(int). -/
def pyInt (q : ℚ) : ℤ := if q < 0 then -Int.floor (-q) else Int.floor q

/-- One frame of inputs to compute_mi_cost: the grayscale image, the
projected pixels, the projection mask and the per-point reflectances. -/
structure MiFrame where
  grayImg : ℤ → ℤ → ℚ
  projPix : List (ℚ × ℚ)
  mask : List Bool
  refl : List ℚ

/-- numpy boolean-mask indexing arr[mask]. -/
def applyMask {β : Type} (xs : List β) (mask : List Bool) : List β :=
  (List.zipWith (fun x m => (x, m)) xs mask).filterMap
    (fun xm => if xm.2 then some xm.1 else none)

/-- grayscale_vector: the grayscale image sampled at the valid projected
pixels with integer-cast coordinates (source lines 560-562). -/
def grayVector (fr : MiFrame) : List ℚ :=
  (applyMask fr.projPix fr.mask).map (fun p => fr.grayImg (pyInt p.2) (pyInt p.1))

/-- reflectance_vector: the masked reflectances scaled by 255.0 and cast
to int (source lines 563-565). -/
def reflVector (fr : MiFrame) : List ℚ :=
  (applyMask fr.refl fr.mask).map (fun r => ((pyInt (r * 255) : ℤ) : ℚ))

/-- compute_mi_cost (source lines 552-593).  The KDE-and-entropy pipeline
(FFTKDE and scipy entropy, external libraries) enters as the parameter
miKde; the guard len(reflectance_vector) > 0 and len(grayscale_vector) > 0,
the sentinel 0 and the final negation are the source lines 567-593. -/
def compute_mi_cost (miKde : List ℚ → List ℚ → ℚ) (fr : MiFrame) : ℚ :=
  -(if 0 < (reflVector fr).length ∧ 0 < (grayVector fr).length
    then miKde (grayVector fr) (reflVector fr) else 0)

/-- A frame with exactly one valid projected point. -/
def miFrameEx : MiFrame := ⟨fun _ _ => 7, [(3, 4)], [true], [1/2]⟩

/-- A KDE pipeline outcome with mutual information 1. -/
def miKdeEx : List ℚ → List ℚ → ℚ := fun _ _ => 1

/-- A frame with no valid projected points at all. -/
def miEmptyFrame : MiFrame := ⟨fun _ _ => 7, [], [], []⟩


/-- Euclidean norm of a real 3-vector; on tau[0:3] this is the rotation
angle of the axis-angle encoding. -/
noncomputable def norm3 (v : V3 ℝ) : ℝ := Real.sqrt (v.x^2 + v.y^2 + v.z^2)

/-- The Rodrigues rotation matrix at angle t about the unit axis
(kx, ky, kz): cos t I + sin t [k]x + (1 - cos t) k kT. -/
noncomputable def rodriguesAux (t kx ky kz : ℝ) : M3 ℝ :=
  ⟨Real.cos t + (1 - Real.cos t) * kx * kx,
   -(Real.sin t) * kz + (1 - Real.cos t) * kx * ky,
   Real.sin t * ky + (1 - Real.cos t) * kx * kz,
   Real.sin t * kz + (1 - Real.cos t) * ky * kx,
   Real.cos t + (1 - Real.cos t) * ky * ky,
   -(Real.sin t) * kx + (1 - Real.cos t) * ky * kz,
   -(Real.sin t) * ky + (1 - Real.cos t) * kz * kx,
   Real.sin t * kx + (1 - Real.cos t) * kz * ky,
   Real.cos t + (1 - Real.cos t) * kz * kz⟩

/-- Modelled from the spec: the forward direction of cv2.Rodrigues
(external OpenCV code) on a rotation vector — the axis-angle to
rotation-matrix map, the identity matrix at angle zero (spec 4.1 and the
data-model invariant in spec section 3). -/
noncomputable def rodrigues (w : V3 ℝ) : M3 ℝ :=
  if norm3 w = 0 then idM3
  else rodriguesAux (norm3 w) (w.x / norm3 w) (w.y / norm3 w) (w.z / norm3 w)

/-- The rotation angle recovered from the trace of a rotation matrix,
arccos((tr R - 1)/2), landing in [0, pi]. -/
noncomputable def traceAngle (R : M3 ℝ) : ℝ :=
  Real.arccos ((R.a00 + R.a11 + R.a22 - 1) / 2)

/-- Modelled from the spec: the inverse direction of cv2.Rodrigues
(external OpenCV code) on a rotation matrix — inverse Rodrigues choosing
the representative with angle in [0, pi] (spec 4.1), built from the trace
angle and the antisymmetric part of R. -/
noncomputable def rodriguesInv (R : M3 ℝ) : V3 ℝ :=
  if Real.sin (traceAngle R) = 0 then ⟨0, 0, 0⟩
  else
    ⟨traceAngle R / (2 * Real.sin (traceAngle R)) * (R.a21 - R.a12),
     traceAngle R / (2 * Real.sin (traceAngle R)) * (R.a02 - R.a20),
     traceAngle R / (2 * Real.sin (traceAngle R)) * (R.a10 - R.a01)⟩

/-- tau_to_transform (source lines 166-170): R by Rodrigues on tau[:3],
T = tau[3:] reshaped. -/
noncomputable def tau_to_transform (t : Tau6 ℝ) : M3 ℝ × V3 ℝ :=
  (rodrigues t.rot, t.trans)

/-- transform_to_tau (source lines 161-164): the rotation vector from
cv2.Rodrigues of R, stacked with T. -/
noncomputable def transform_to_tau (R : M3 ℝ) (T : V3 ℝ) : Tau6 ℝ :=
  ⟨rodriguesInv R, T⟩

/-- A concrete tau for the round-trip witness. -/
noncomputable def tauWit : Tau6 ℝ := ⟨⟨0, 0, 0⟩, ⟨1, 2, 3⟩⟩


/-- One frame of user-picked correspondences, as stored in
self.correspondences: the picked grayscale pixels and the picked 3D lidar
points (source lines 153-154 and 660-662). -/
structure CorrFrame where
  grayPixels : List (ℝ × ℝ)
  lidarPoints : List (V3 ℝ)

/-- Reprojection of one picked lidar point through the current (R, T, K):
camera frame by R p + T, homogeneous pixel by K, then division by the
third coordinate (source lines 663-667). -/
noncomputable def reprojectPixel (K R : M3 ℝ) (T : V3 ℝ) (p : V3 ℝ) : ℝ × ℝ :=
  ((K.mulV ((R.mulV p).add T)).x / (K.mulV ((R.mulV p).add T)).z,
   (K.mulV ((R.mulV p).add T)).y / (K.mulV ((R.mulV p).add T)).z)

/-- np.linalg.norm(pixel_diff, axis=1, ord=1): the L1 pixel distance
(source lines 669-670). -/
noncomputable def l1dist (a b : ℝ × ℝ) : ℝ := |a.1 - b.1| + |a.2 - b.2|

/-- The per-frame list of L1 distances between each picked pixel and the
reprojection of its lidar point. -/
noncomputable def frameDists (K R : M3 ℝ) (T : V3 ℝ) (fr : CorrFrame) : List ℝ :=
  List.zipWith (fun g p => l1dist g (reprojectPixel K R T p))
    fr.grayPixels fr.lidarPoints

/-- num_corresp: the lidar pixel counts accumulated over all frames
(source line 671). -/
def numCorresp (frames : List CorrFrame) : ℕ :=
  (frames.map (fun fr => fr.lidarPoints.length)).sum

/-- The robustifier of the correspondence cost: dist when dist <= 5, else
dist squared (source lines 674-678). -/
noncomputable def rho (d : ℝ) : ℝ := if d ≤ 5 then d else d^2

/-- compute_corresp_cost (source lines 653-680): collect the L1
reprojection distances of every picked pair, robustify with rho, average
over num_corresp and return -dist_offset + 3 * average with dist_offset =
sqrt(img_w^2 + img_h^2) * 3.  When no correspondences were picked the
Python division total_dist / num_corresp raises ZeroDivisionError, so the
embedding returns none in that case. -/
noncomputable def compute_corresp_cost (W H : ℕ) (K R : M3 ℝ) (T : V3 ℝ)
    (frames : List CorrFrame) : Option ℝ :=
  if numCorresp frames = 0 then none
  else some (-(Real.sqrt ((W : ℝ)^2 + (H : ℝ)^2) * 3) +
    3 * (((frames.map (frameDists K R T)).join.map rho).sum /
      (numCorresp frames : ℝ)))

/-- The calibrator state read by loss_translation: the current tau, the
frame count, the picked correspondences, the intrinsics and image size. -/
structure CalibT where
  tau : Tau6 ℝ
  numFrames : ℕ
  correspondences : List CorrFrame
  K : M3 ℝ
  imgW : ℕ
  imgH : ℕ

/-- loss_translation (source lines 922-944): write trans into tau[3:],
recompute (R, T) through the codec (update_extrinsics followed by
project_point_cloud), then for every frame accumulate alpha_mi *
compute_mi_cost + alpha_gmm * compute_conv_cost + alpha_corr *
compute_corresp_cost.  The per-frame mutual-information and convolution
costs enter as the callback parameters miCost and convCost — they never
read the correspondence list — while compute_corresp_cost is invoked once
per frame with NO guard on alpha_corr (unlike loss_scaled, which tests
alpha_corr for truthiness first, source lines 908-909), so its
ZeroDivisionError — none here — escapes whatever the weight is. -/
noncomputable def loss_translation (toRT : Tau6 ℝ → M3 ℝ × V3 ℝ)
    (miCost convCost : ℕ → ℝ) (st : CalibT) (trans : V3 ℝ)
    (alphaMi alphaGmm alphaCorr : ℝ) : Option ℝ :=
  let tauNew : Tau6 ℝ := ⟨st.tau.rot, trans⟩
  let RT := toRT tauNew
  (List.range st.numFrames).foldl
    (fun acc i => acc.bind (fun a =>
      (compute_corresp_cost st.imgW st.imgH st.K RT.1 RT.2
          st.correspondences).map
        (fun c => a + alphaMi * miCost i + alphaGmm * convCost i +
          alphaCorr * c)))
    (some 0)

/-- A perfectly matched correspondence pair for the witness: the picked
pixel (1, 2) and the lidar point (1, 2, 1), whose reprojection under the
identity extrinsics and intrinsics is exactly (1, 2). -/
noncomputable def corrWitFrames : List CorrFrame := [⟨[(1, 2)], [⟨1, 2, 1⟩]⟩]

/-- A state with one frame and an empty correspondence list. -/
noncomputable def lossWitState : CalibT := ⟨⟨⟨0, 0, 0⟩, ⟨0, 0, 0⟩⟩, 1, [], idM3, 4, 3⟩

/-- The identity-rotation codec over the reals, Rodrigues at angle zero. -/
noncomputable def realZeroCodec : Tau6 ℝ → M3 ℝ × V3 ℝ := fun t => (idM3, t.trans)

/-- Zero per-frame cost callbacks for the loss_translation witness. -/
noncomputable def zeroFrameCost : ℕ → ℝ := fun _ => 0


/-- One frame of inputs to compute_conv_cost: the image size, the image
edge-score map img_edge_scores (zero outside the image), the lidar
edge-point indices pcs_edge_idxs, the projection mask, the integer-cast
projected pixels, the camera-frame point norms used by sigma scaling, and
the pc edge scores. -/
structure ConvFrame where
  imgW : ℕ
  imgH : ℕ
  edgeScore : ℤ → ℤ → ℚ
  pcsEdgeIdxs : List ℕ
  projMask : ℕ → Bool
  projPix : ℕ → ℤ × ℤ
  camNorm : ℕ → ℚ
  pcScore : ℕ → ℚ

/-- Modelled from the spec: the x extent of the patch get_boundry carves
out of the image around mu — the 3 sigma window clipped to the image
(spec 4.4 step 2; get_boundry lives outside src/). -/
def windowX (W : ℕ) (mux s : ℤ) : Finset ℤ :=
  Finset.Icc (max 0 (mux - 3 * s)) (min ((W : ℤ) - 1) (mux + 3 * s))

/-- Modelled from the spec: the y extent of the same clipped window. -/
def windowY (H : ℕ) (muy s : ℤ) : Finset ℤ :=
  Finset.Icc (max 0 (muy - 3 * s)) (min ((H : ℤ) - 1) (muy + 3 * s))

/-- Modelled from the spec: the kernel getGaussianKernel2D(sigma, False)
returns — value (1/(sigma sqrt(2 pi))) exp(-(dx^2 + dy^2)/(2 sigma^2)) at
offset (dx, dy) from the center, set to 0 beyond distance 3 sigma, not
normalized (spec 4.4 step 4 fixes the 1D normalizer by design; the
source comment at lines 616-618 states the 3 sigma truncation;
getGaussianKernel2D lives outside src/). -/
noncomputable def gaussKernel (sigma : ℝ) (dx dy : ℤ) : ℝ :=
  if ((dx : ℝ)^2 + (dy : ℝ)^2) ≤ (3 * sigma)^2 then
    (1 / (sigma * Real.sqrt (2 * Real.pi))) *
      Real.exp (-((dx : ℝ)^2 + (dy : ℝ)^2) / (2 * sigma^2))
  else 0

/-- The kernel sigma for one edge point: sigma_in divided by the norm of
the camera-frame point under sigma scaling, else sigma_in unchanged
(source lines 607-613). -/
def convSigma (f : ConvFrame) (sigmaIn : ℚ) (scaling : Bool) (idx : ℕ) : ℚ :=
  if scaling then sigmaIn / f.camNorm idx else sigmaIn

/-- num_nonzeros = np.sum(edge_scores_patch != 0), counted before the
in-place increment (source line 633). -/
def convNumNonzeros (f : ConvFrame) (sigmaIn : ℚ) (scaling : Bool) (idx : ℕ) : ℕ :=
  (((windowX f.imgW (f.projPix idx).1 (pyInt (convSigma f sigmaIn scaling idx))) ×ˢ
    (windowY f.imgH (f.projPix idx).2 (pyInt (convSigma f sigmaIn scaling idx)))).filter
    (fun q : ℤ × ℤ => f.edgeScore q.2 q.1 ≠ 0)).card

/-- One entry of edge_scores_patch after the in-place increment
edge_scores_patch[edge_scores_patch != 0] += pcs_edge_scores[idx]
(source lines 637-638). -/
def convPatchVal (f : ConvFrame) (idx : ℕ) (q : ℤ × ℤ) : ℚ :=
  if f.edgeScore q.2 q.1 ≠ 0 then f.edgeScore q.2 q.1 + f.pcScore idx
  else f.edgeScore q.2 q.1

/-- np.sum(edge_scores_patch > 0) after the increment, the denominator of
the normalization (source line 647). -/
def convNumPos (f : ConvFrame) (sigmaIn : ℚ) (scaling : Bool) (idx : ℕ) : ℕ :=
  (((windowX f.imgW (f.projPix idx).1 (pyInt (convSigma f sigmaIn scaling idx))) ×ˢ
    (windowY f.imgH (f.projPix idx).2 (pyInt (convSigma f sigmaIn scaling idx)))).filter
    (fun q : ℤ × ℤ => 0 < convPatchVal f idx q)).card

/-- The value written into cost_map[mu_y, mu_x] for one edge point:
np.sum(np.multiply(edge_scores_patch, kernel_patch)) divided by
2 * np.sum(edge_scores_patch > 0) (source lines 640-647). -/
noncomputable def convPointValue (f : ConvFrame) (sigmaIn : ℚ) (scaling : Bool)
    (idx : ℕ) : ℝ :=
  (Finset.sum
    ((windowX f.imgW (f.projPix idx).1 (pyInt (convSigma f sigmaIn scaling idx))) ×ˢ
      (windowY f.imgH (f.projPix idx).2 (pyInt (convSigma f sigmaIn scaling idx))))
    (fun q : ℤ × ℤ => (convPatchVal f idx q : ℝ) *
      gaussKernel ((convSigma f sigmaIn scaling idx : ℚ) : ℝ)
        (q.1 - (f.projPix idx).1) (q.2 - (f.projPix idx).2)))
    / (2 * (convNumPos f sigmaIn scaling idx : ℝ))

/-- The cost map after the loop over pcs_edge_idxs (source lines 598-647):
each edge point that passes the projection mask and whose patch holds at
least one nonzero edge score writes its value at its pixel — the write at
line 646 assigns cost_map[mu_y, mu_x] rather than accumulating — and all
other points leave the map unchanged. -/
noncomputable def convCostMap (f : ConvFrame) (sigmaIn : ℚ) (scaling : Bool) :
    (ℤ × ℤ) → ℝ :=
  f.pcsEdgeIdxs.foldl
    (fun m idx =>
      if f.projMask idx = true then
        if convNumNonzeros f sigmaIn scaling idx = 0 then m
        else Function.update m (f.projPix idx) (convPointValue f sigmaIn scaling idx)
      else m)
    (fun _ => 0)

/-- compute_conv_cost (source lines 595-651): the negated sum of the cost
map over the image grid. -/
noncomputable def compute_conv_cost (f : ConvFrame) (sigmaIn : ℚ)
    (scaling : Bool) : ℝ :=
  -(Finset.sum
    ((Finset.Icc (0 : ℤ) ((f.imgW : ℤ) - 1)) ×ˢ (Finset.Icc (0 : ℤ) ((f.imgH : ℤ) - 1)))
    (fun q => convCostMap f sigmaIn scaling q))

/-- The single-point scenario of the spec (section 8, scenario 2): a
100 by 100 image whose edge map holds exactly one edge pixel at (10, 10)
with score 1, one lidar edge point projecting to pixel (10, 10) with pc
edge score 1, and sigma = 2 with distance scaling disabled. -/
def convScenario : ConvFrame :=
  ⟨100, 100, fun yy xx => if yy = 10 ∧ xx = 10 then 1 else 0,
   [0], fun _ => true, fun _ => (10, 10), fun _ => 1, fun _ => 1⟩

theorem getq_zipWith {β γ δ : Type} (f : β → γ → δ) :
    ∀ (l1 : List β) (l2 : List γ) (n : ℕ),
      (List.zipWith f l1 l2).get? n =
        (l1.get? n).bind (fun a => (l2.get? n).map (fun b => f a b)) := by
  intro l1
  induction l1 with
  | nil => intro l2 n; simp
  | cons a l ih =>
    intro l2 n
    cases l2 with
    | nil => simp
    | cons b l2 =>
      cases n with
      | zero => simp
      | succ m => simpa using ih l2 m

/-- C1: the spec says project_point_cloud raises BadProjection when the
in-frustum count drops below the configured floor.  The source never
raises: on an input whose in-frustum count across all frames is 0 (below
any floor) the projector completes normally and returns an all-false
mask. -/
theorem project_point_cloud_completes_below_floor :
    inFrustumTotal (project_point_cloud zeroRotCodec badCalibEx).projectionMask = 0 ∧
    (project_point_cloud zeroRotCodec badCalibEx).projectionMask = [[false]] := by
  have h : (project_point_cloud zeroRotCodec badCalibEx).projectionMask = [[false]] := by
    norm_num [project_point_cloud, camFrameList, projectPixels, frameMask, logicalAnd,
      insideXMask, insideYMask, inFrontMask, idM3, M3.mulV, V3.add, zeroRotCodec, badCalibEx]
  exact ⟨by rw [h]; rfl, h⟩

/-- C7: the projector is idempotent over equal tau and its derived tables
are a function only of (tau, K, image dims, pcs): a second application
leaves the tables unchanged, and two states agreeing on those inputs get
identical tables however their cached R, T and previous tables differ. -/
theorem project_point_cloud_idempotent (toRT : Tau6 α → M3 α × V3 α)
    (s1 s2 : Calib α) (htau : s1.tau = s2.tau) (hK : s1.K = s2.K)
    (hW : s1.imgW = s2.imgW) (hH : s1.imgH = s2.imgH) (hpcs : s1.pcs = s2.pcs) :
    derivedTables (project_point_cloud toRT (project_point_cloud toRT s1)) =
      derivedTables (project_point_cloud toRT s1) ∧
    derivedTables (project_point_cloud toRT s1) =
      derivedTables (project_point_cloud toRT s2) := by
  constructor
  · rfl
  · simp only [project_point_cloud, derivedTables, htau, hK, hW, hH, hpcs]

/-- C7 witness: two concrete rational states share (tau, K, dims, pcs) but
disagree on cached R, T and stale tables; projecting yields identical
tables, and projecting twice changes nothing. -/
theorem project_point_cloud_idempotent_witness :
    (witCalibA.tau = witCalibB.tau ∧ witCalibA.K = witCalibB.K ∧
      witCalibA.imgW = witCalibB.imgW ∧ witCalibA.imgH = witCalibB.imgH ∧
      witCalibA.pcs = witCalibB.pcs) ∧
    derivedTables (project_point_cloud zeroRotCodec (project_point_cloud zeroRotCodec witCalibA)) =
      derivedTables (project_point_cloud zeroRotCodec witCalibA) ∧
    derivedTables (project_point_cloud zeroRotCodec witCalibA) =
      derivedTables (project_point_cloud zeroRotCodec witCalibB) := by
  refine ⟨⟨rfl, rfl, rfl, rfl, rfl⟩, ?_, ?_⟩
  · exact (project_point_cloud_idempotent zeroRotCodec witCalibA witCalibB
      rfl rfl rfl rfl rfl).1
  · exact (project_point_cloud_idempotent zeroRotCodec witCalibA witCalibB
      rfl rfl rfl rfl rfl).2

theorem frameMask_get {W H : ℕ} {cam : List (V3 α)} {pix : List (α × α)}
    {i : ℕ} {c : V3 α} {p : α × α}
    (hci : cam.get? i = some c) (hpi : pix.get? i = some p) :
    (frameMask W H cam pix).get? i =
      some (((decide (0 ≤ p.1) && decide (p.1 ≤ (W : α))) &&
        (decide (0 ≤ p.2) && decide (p.2 ≤ (H : α)))) && decide (0 < c.z)) := by
  simp only [frameMask, logicalAnd]
  rw [getq_zipWith, getq_zipWith]
  simp only [insideXMask, insideYMask, inFrontMask, List.get?_map, hci, hpi,
    Option.map_some', Option.some_bind]

/-- C6: for every frame k and point index i, the stored projection-mask bit
is true exactly when the stored camera-frame z coordinate is strictly
positive and the stored projected pixel lies inside the image with
inclusive bounds: cam.z > 0 and 0 <= pix.x <= W and 0 <= pix.y <= H. -/
theorem projection_mask_iff (toRT : Tau6 α → M3 α × V3 α) (s : Calib α)
    (k i : ℕ) (cam : V3 α) (pix : α × α) (b : Bool)
    (hc : ((project_point_cloud toRT s).pointsCamFrame.get? k).bind
        (fun l => l.get? i) = some cam)
    (hp : ((project_point_cloud toRT s).projectedPoints.get? k).bind
        (fun l => l.get? i) = some pix)
    (hb : ((project_point_cloud toRT s).projectionMask.get? k).bind
        (fun l => l.get? i) = some b) :
    b = true ↔
      (0 < cam.z ∧ (0 ≤ pix.1 ∧ pix.1 ≤ (s.imgW : α)) ∧
        (0 ≤ pix.2 ∧ pix.2 ≤ (s.imgH : α))) := by
  simp only [project_point_cloud] at hc hp hb
  rcases Option.bind_eq_some.mp hc with ⟨cl, hcl, hcli⟩
  rcases Option.bind_eq_some.mp hp with ⟨pl, hpl, hpli⟩
  rcases Option.bind_eq_some.mp hb with ⟨ml, hml, hmli⟩
  rw [List.get?_map, hcl, Option.map_some'] at hpl
  have hplv : pl = projectPixels s.K cl := (Option.some_inj.mp hpl).symm
  subst hplv
  rw [getq_zipWith, hcl, Option.some_bind, List.get?_map, hcl,
    Option.map_some', Option.map_some'] at hml
  have hmlv : ml = frameMask s.imgW s.imgH cl (projectPixels s.K cl) :=
    (Option.some_inj.mp hml).symm
  subst hmlv
  rw [frameMask_get hcli hpli] at hmli
  have hbv := (Option.some_inj.mp hmli)
  subst hbv
  simp only [Bool.and_eq_true, decide_eq_true_eq]
  tauto

/-- C6 witness: in the concrete state witCalibA the first point of the
first frame has camera coordinates (1,1,5), pixel (1/5, 1/5), mask bit
true, and the characterization holds there. -/
theorem projection_mask_iff_witness :
    (((project_point_cloud zeroRotCodec witCalibA).pointsCamFrame.get? 0).bind
        (fun l => l.get? 0) = some witCam) ∧
    (((project_point_cloud zeroRotCodec witCalibA).projectedPoints.get? 0).bind
        (fun l => l.get? 0) = some witPix) ∧
    (((project_point_cloud zeroRotCodec witCalibA).projectionMask.get? 0).bind
        (fun l => l.get? 0) = some true) ∧
    (true = true ↔
      (0 < witCam.z ∧ (0 ≤ witPix.1 ∧ witPix.1 ≤ (witCalibA.imgW : ℚ)) ∧
        (0 ≤ witPix.2 ∧ witPix.2 ≤ (witCalibA.imgH : ℚ)))) := by
  have hc : ((project_point_cloud zeroRotCodec witCalibA).pointsCamFrame.get? 0).bind
      (fun l => l.get? 0) = some witCam := by
    norm_num [project_point_cloud, camFrameList, projectPixels, idM3, M3.mulV,
      V3.add, zeroRotCodec, witCalibA, witCam]
  have hp : ((project_point_cloud zeroRotCodec witCalibA).projectedPoints.get? 0).bind
      (fun l => l.get? 0) = some witPix := by
    norm_num [project_point_cloud, camFrameList, projectPixels, idM3, M3.mulV,
      V3.add, zeroRotCodec, witCalibA, witPix]
  have hb : ((project_point_cloud zeroRotCodec witCalibA).projectionMask.get? 0).bind
      (fun l => l.get? 0) = some true := by
    norm_num [project_point_cloud, camFrameList, projectPixels, frameMask,
      logicalAnd, insideXMask, insideYMask, inFrontMask, idM3, M3.mulV, V3.add,
      zeroRotCodec, witCalibA]
  exact ⟨hc, hp, hb,
    projection_mask_iff zeroRotCodec witCalibA 0 0 witCam witPix true hc hp hb⟩

/-- C2 counterexample: the claim says tau is rescaled by multiplying
componentwise with s = (1, 1, 1, 1/100, 1/100, 1/100); the source divides
by the vector (10, 10, 10, 1/100, 1/100, 1/100).  At the all-ones tau the
two disagree in every slot: the code yields 1/10 on rotation slots where
the claim yields 1, and 100 on translation slots where the claim yields
1/100. -/
theorem ls_optimize_scale_counterexample :
    lsPreScale onesTau ≠ specClaimScale onesTau ∧
    lsPreScale onesTau 0 = 1/10 ∧ specClaimScale onesTau 0 = 1 ∧
    lsPreScale onesTau 3 = 100 ∧ specClaimScale onesTau 3 = 1/100 := by
  have h0 : lsPreScale onesTau 0 = 1/10 := by
    norm_num [lsPreScale, tau_ord_mags, tauOrdExps, onesTau]
  have h0s : specClaimScale onesTau 0 = 1 := by
    norm_num [specClaimScale, onesTau]
  have h3 : lsPreScale onesTau 3 = 100 := by
    norm_num [lsPreScale, tau_ord_mags, tauOrdExps, onesTau,
      (by decide : ¬ ((3 : Fin 6)).val < 3)]
  have h3s : specClaimScale onesTau 3 = 1/100 := by
    norm_num [specClaimScale, onesTau, (by decide : ¬ ((3 : Fin 6)).val < 3)]
  refine ⟨fun h => ?_, h0, h0s, h3, h3s⟩
  have := congrFun h 0
  rw [h0, h0s] at this
  norm_num at this

/-- C2 amended: ls_optimize divides tau componentwise by the fixed vector
tau_ord_mags = (10, 10, 10, 1/100, 1/100, 1/100) before minimize runs, and
multiplies the optimizer's result by the same vector afterwards, exactly
inverting the rescale. -/
theorem ls_optimize_scale_amended (t : Fin 6 → ℚ) :
    (∀ i : Fin 6, i.val < 3 → tau_ord_mags i = 10) ∧
    (∀ i : Fin 6, 3 ≤ i.val → tau_ord_mags i = 1/100) ∧
    (∀ i, lsPreScale t i = t i / tau_ord_mags i) ∧
    lsPostScale (lsPreScale t) = t := by
  refine ⟨?_, ?_, fun i => rfl, ?_⟩
  · intro i hi
    simp only [tau_ord_mags, tauOrdExps, if_pos hi]
    norm_num
  · intro i hi
    simp only [tau_ord_mags, tauOrdExps, if_neg (by omega : ¬ i.val < 3)]
    norm_num
  · funext i
    have hne : tau_ord_mags i ≠ 0 := by
      simp only [tau_ord_mags]
      exact zpow_ne_zero _ (by norm_num)
    simp [lsPostScale, lsPreScale, div_mul_cancel₀ _ hne]

/-- C2 amended witness: the scale vector at slots 0 and 3, and the
round-trip at the all-ones tau. -/
theorem ls_optimize_scale_amended_witness :
    tau_ord_mags 0 = 10 ∧ tau_ord_mags 3 = 1/100 ∧
    lsPostScale (lsPreScale onesTau) = onesTau :=
  ⟨(ls_optimize_scale_amended onesTau).1 0 (by decide),
   (ls_optimize_scale_amended onesTau).2.1 3 (by decide),
   (ls_optimize_scale_amended onesTau).2.2.2⟩

/-- C3: in compute_gradient the three derivative rows are not distinct:
the chained assignment aliases them to one buffer, so after the writes
every row equals (M[2], 1, 1, 1), and the du/dtau the code accumulates
differs from the spec's chain rule built from three distinct rows — here
at M the identity, fx = xc = zc = 1. -/
theorem compute_gradient_aliased_rows :
    (∀ M : Fin 3 → Fin 3 → ℚ, ∀ j : Fin 6,
      gradSharedRow M j = if h : j.val < 3 then M 2 ⟨j.val, h⟩ else 1) ∧
    codeDuDtau gradMEx 1 1 1 ≠ specDuDtau gradMEx 1 1 1 := by
  constructor
  · intro M j
    fin_cases j <;> rfl
  · intro h
    have h5 := congrFun h (5 : Fin 6)
    simp +decide [codeDuDtau, specDuDtau, specDxcDtau, specDycDtau,
      specDzcDtau, gradSharedRow, writeFirstThree, zeroRow6, gradMEx,
      Function.update_apply] at h5

/-- C9 counterexample: a frame with exactly one valid projected point —
fewer than a handful — does not get the sentinel: with the external KDE
pipeline returning mutual information 1, compute_mi_cost returns -1, not
the sentinel 0. -/
theorem compute_mi_cost_counterexample :
    (applyMask miFrameEx.projPix miFrameEx.mask).length = 1 ∧ 1 < 5 ∧
    compute_mi_cost miKdeEx miFrameEx = -1 ∧ (-1 : ℚ) ≠ 0 := by
  refine ⟨rfl, by norm_num, ?_, by norm_num⟩
  simp [compute_mi_cost, reflVector, grayVector, applyMask, miFrameEx, miKdeEx]

/-- C9 amended: compute_mi_cost returns the sentinel 0 exactly on the
guard the source tests — zero valid projected points — and with at least
one valid point it evaluates the KDE pipeline and returns the negated
mutual information. -/
theorem compute_mi_cost_sentinel (miKde : List ℚ → List ℚ → ℚ) (fr : MiFrame) :
    ((applyMask fr.refl fr.mask).length = 0 → compute_mi_cost miKde fr = 0) ∧
    (0 < (applyMask fr.refl fr.mask).length →
      0 < (applyMask fr.projPix fr.mask).length →
      compute_mi_cost miKde fr = -(miKde (grayVector fr) (reflVector fr))) := by
  constructor
  · intro h
    simp [compute_mi_cost, reflVector, List.length_map, h]
  · intro h1 h2
    simp [compute_mi_cost, reflVector, grayVector, List.length_map, h1, h2]

/-- C9 amended witness: the empty frame gets the sentinel, the one-point
frame gets the negated KDE value. -/
theorem compute_mi_cost_sentinel_witness :
    (applyMask miEmptyFrame.refl miEmptyFrame.mask).length = 0 ∧
    compute_mi_cost miKdeEx miEmptyFrame = 0 ∧
    0 < (applyMask miFrameEx.refl miFrameEx.mask).length ∧
    compute_mi_cost miKdeEx miFrameEx =
      -(miKdeEx (grayVector miFrameEx) (reflVector miFrameEx)) :=
  ⟨rfl, (compute_mi_cost_sentinel miKdeEx miEmptyFrame).1 rfl,
   by decide,
   (compute_mi_cost_sentinel miKdeEx miFrameEx).2 (by decide) (by decide)⟩

theorem rodriguesInv_rodriguesAux (t kx ky kz : ℝ) (h0 : 0 < t)
    (hpi : t < Real.pi) (hk : kx^2 + ky^2 + kz^2 = 1) :
    rodriguesInv (rodriguesAux t kx ky kz) = ⟨t * kx, t * ky, t * kz⟩ := by
  have hc : ((rodriguesAux t kx ky kz).a00 + (rodriguesAux t kx ky kz).a11 +
      (rodriguesAux t kx ky kz).a22 - 1) / 2 = Real.cos t := by
    simp only [rodriguesAux]
    linear_combination ((1 - Real.cos t) / 2) * hk
  have hacos : traceAngle (rodriguesAux t kx ky kz) = t := by
    rw [traceAngle, hc, Real.arccos_cos h0.le hpi.le]
  have hsin : Real.sin t ≠ 0 :=
    ne_of_gt (Real.sin_pos_of_pos_of_lt_pi h0 hpi)
  rw [rodriguesInv, hacos, if_neg hsin]
  simp only [rodriguesAux, V3.mk.injEq]
  refine ⟨?_, ?_, ?_⟩ <;> field_simp <;> ring

theorem rodrigues_roundtrip (w : V3 ℝ) (h : norm3 w < Real.pi) :
    rodriguesInv (rodrigues w) = w := by
  by_cases h0 : norm3 w = 0
  · have hsum : w.x^2 + w.y^2 + w.z^2 = 0 := by
      have hnn : 0 ≤ w.x^2 + w.y^2 + w.z^2 := by positivity
      have := (Real.sqrt_eq_zero hnn).mp h0
      linarith
    have hx : w.x = 0 := by nlinarith [sq_nonneg w.x, sq_nonneg w.y, sq_nonneg w.z]
    have hy : w.y = 0 := by nlinarith [sq_nonneg w.x, sq_nonneg w.y, sq_nonneg w.z]
    have hz : w.z = 0 := by nlinarith [sq_nonneg w.x, sq_nonneg w.y, sq_nonneg w.z]
    have hta : traceAngle (idM3 : M3 ℝ) = 0 := by
      have : ((idM3 : M3 ℝ).a00 + (idM3 : M3 ℝ).a11 + (idM3 : M3 ℝ).a22 - 1) / 2 = 1 := by
        norm_num [idM3]
      rw [traceAngle, this, Real.arccos_one]
    rw [rodrigues, if_pos h0, rodriguesInv, hta]
    rw [if_pos Real.sin_zero]
    cases w
    simp_all
  · have hpos : 0 < norm3 w := lt_of_le_of_ne (Real.sqrt_nonneg _) (Ne.symm h0)
    have hsq : (norm3 w)^2 = w.x^2 + w.y^2 + w.z^2 := Real.sq_sqrt (by positivity)
    have hk : (w.x / norm3 w)^2 + (w.y / norm3 w)^2 + (w.z / norm3 w)^2 = 1 := by
      field_simp
      linarith
    rw [rodrigues, if_neg h0, rodriguesInv_rodriguesAux _ _ _ _ hpos h hk]
    cases w
    simp only [V3.mk.injEq]
    refine ⟨?_, ?_, ?_⟩ <;> field_simp

/-- C5: the transform codec round-trips: for tau whose rotation vector has
angle below pi, transform_to_tau applied to the (R, T) that
tau_to_transform produces returns tau again, within 10^-9 in every
component (here exactly). -/
theorem transform_codec_roundtrip (t : Tau6 ℝ) (h : norm3 t.rot < Real.pi) :
    |(transform_to_tau (tau_to_transform t).1 (tau_to_transform t).2).rot.x - t.rot.x| ≤ 1/10^9 ∧
    |(transform_to_tau (tau_to_transform t).1 (tau_to_transform t).2).rot.y - t.rot.y| ≤ 1/10^9 ∧
    |(transform_to_tau (tau_to_transform t).1 (tau_to_transform t).2).rot.z - t.rot.z| ≤ 1/10^9 ∧
    |(transform_to_tau (tau_to_transform t).1 (tau_to_transform t).2).trans.x - t.trans.x| ≤ 1/10^9 ∧
    |(transform_to_tau (tau_to_transform t).1 (tau_to_transform t).2).trans.y - t.trans.y| ≤ 1/10^9 ∧
    |(transform_to_tau (tau_to_transform t).1 (tau_to_transform t).2).trans.z - t.trans.z| ≤ 1/10^9 := by
  have hr : transform_to_tau (tau_to_transform t).1 (tau_to_transform t).2 = t := by
    cases t with
    | mk r tr =>
      simp only [tau_to_transform, transform_to_tau, Tau6.mk.injEq]
      exact ⟨rodrigues_roundtrip r h, by trivial⟩
  rw [hr]
  norm_num

/-- C5 witness: the codec round-trips at the concrete tau with zero
rotation and translation (1, 2, 3). -/
theorem transform_codec_roundtrip_witness :
    norm3 tauWit.rot < Real.pi ∧
    |(transform_to_tau (tau_to_transform tauWit).1 (tau_to_transform tauWit).2).rot.x - tauWit.rot.x| ≤ 1/10^9 ∧
    |(transform_to_tau (tau_to_transform tauWit).1 (tau_to_transform tauWit).2).rot.y - tauWit.rot.y| ≤ 1/10^9 ∧
    |(transform_to_tau (tau_to_transform tauWit).1 (tau_to_transform tauWit).2).rot.z - tauWit.rot.z| ≤ 1/10^9 ∧
    |(transform_to_tau (tau_to_transform tauWit).1 (tau_to_transform tauWit).2).trans.x - tauWit.trans.x| ≤ 1/10^9 ∧
    |(transform_to_tau (tau_to_transform tauWit).1 (tau_to_transform tauWit).2).trans.y - tauWit.trans.y| ≤ 1/10^9 ∧
    |(transform_to_tau (tau_to_transform tauWit).1 (tau_to_transform tauWit).2).trans.z - tauWit.trans.z| ≤ 1/10^9 := by
  have h : norm3 tauWit.rot < Real.pi := by
    have : norm3 tauWit.rot = 0 := by
      norm_num [norm3, tauWit, Real.sqrt_zero]
    rw [this]
    exact Real.pi_pos
  exact ⟨h, transform_codec_roundtrip tauWit h⟩

/-- C8: for every nonempty correspondence set compute_corresp_cost returns
-offset + 3 * avg with offset = 3 sqrt(W^2 + H^2) and avg the
rho-robustified mean of the per-pair L1 reprojection distances; in
particular a single perfectly matched pair yields -3 sqrt(W^2 + H^2). -/
theorem compute_corresp_cost_formula (W H : ℕ) (K R : M3 ℝ) (T : V3 ℝ)
    (frames : List CorrFrame) (hne : 0 < numCorresp frames) :
    compute_corresp_cost W H K R T frames =
      some (-(3 * Real.sqrt ((W : ℝ)^2 + (H : ℝ)^2)) +
        3 * (((frames.map (frameDists K R T)).join.map rho).sum /
          (numCorresp frames : ℝ))) ∧
    (∀ g p, l1dist g (reprojectPixel K R T p) = 0 →
      compute_corresp_cost W H K R T [⟨[g], [p]⟩] =
        some (-(3 * Real.sqrt ((W : ℝ)^2 + (H : ℝ)^2)))) := by
  constructor
  · rw [compute_corresp_cost, if_neg (Nat.pos_iff_ne_zero.mp hne)]
    ring_nf
  · intro g p hgp
    have hone : numCorresp [(⟨[g], [p]⟩ : CorrFrame)] = 1 := rfl
    rw [compute_corresp_cost, if_neg (by rw [hone]; norm_num)]
    simp only [List.map_cons, List.map_nil, frameDists, List.zipWith_cons_cons,
      List.zipWith_nil_right, List.join, hgp, hone]
    norm_num [rho, List.join]
    ring

/-- C8 witness: with W = 3, H = 4, identity extrinsics and intrinsics, and
the single perfectly matched pair of corrWitFrames, the cost is exactly
-15 = -3 sqrt(3^2 + 4^2). -/
theorem compute_corresp_cost_formula_witness :
    0 < numCorresp corrWitFrames ∧
    compute_corresp_cost 3 4 idM3 idM3 ⟨0, 0, 0⟩ corrWitFrames = some (-15) := by
  have hz : l1dist (1, 2) (reprojectPixel idM3 idM3 ⟨0, 0, 0⟩ ⟨1, 2, 1⟩) = 0 := by
    norm_num [l1dist, reprojectPixel, M3.mulV, V3.add, idM3]
  have happ := (compute_corresp_cost_formula 3 4 idM3 idM3 ⟨0, 0, 0⟩
    corrWitFrames (by norm_num [numCorresp, corrWitFrames])).2 (1, 2) ⟨1, 2, 1⟩ hz
  have hsqrt : Real.sqrt (((3 : ℕ) : ℝ)^2 + ((4 : ℕ) : ℝ)^2) = 5 := by
    rw [show (((3 : ℕ) : ℝ)^2 + ((4 : ℕ) : ℝ)^2) = 5^2 by norm_num]
    exact Real.sqrt_sq (by norm_num)
  refine ⟨by norm_num [numCorresp, corrWitFrames], ?_⟩
  have : corrWitFrames = [(⟨[(1, 2)], [⟨1, 2, 1⟩]⟩ : CorrFrame)] := rfl
  rw [this, happ, hsqrt]
  norm_num

theorem foldl_step_none (step : Option ℝ → ℕ → Option ℝ)
    (hstep : ∀ i, step none i = none) :
    ∀ l : List ℕ, l.foldl step none = none := by
  intro l
  induction l with
  | nil => rfl
  | cons a l ih => rw [List.foldl_cons, hstep]; exact ih

/-- C10: with an empty correspondence list compute_corresp_cost divides by
num_corresp = 0 and is undefined (none, the ZeroDivisionError), and
loss_translation — which invokes it unconditionally on every cost
evaluation — is undefined as well, including when alpha_corr = 0. -/
theorem loss_translation_empty_correspondences (toRT : Tau6 ℝ → M3 ℝ × V3 ℝ)
    (miCost convCost : ℕ → ℝ) (st : CalibT) (trans : V3 ℝ)
    (alphaMi alphaGmm alphaCorr : ℝ)
    (hempty : numCorresp st.correspondences = 0) (hframes : 0 < st.numFrames) :
    compute_corresp_cost st.imgW st.imgH st.K (toRT ⟨st.tau.rot, trans⟩).1
      (toRT ⟨st.tau.rot, trans⟩).2 st.correspondences = none ∧
    loss_translation toRT miCost convCost st trans alphaMi alphaGmm alphaCorr = none ∧
    loss_translation toRT miCost convCost st trans alphaMi alphaGmm 0 = none := by
  have hc : ∀ R1 : M3 ℝ, ∀ T1 : V3 ℝ,
      compute_corresp_cost st.imgW st.imgH st.K R1 T1 st.correspondences = none := by
    intro R1 T1
    rw [compute_corresp_cost, if_pos hempty]
  have hloss : ∀ ac : ℝ,
      loss_translation toRT miCost convCost st trans alphaMi alphaGmm ac = none := by
    intro ac
    simp only [loss_translation]
    rcases Nat.exists_eq_succ_of_ne_zero (Nat.pos_iff_ne_zero.mp hframes) with ⟨m, hm⟩
    rw [hm, List.range_succ_eq_map, List.foldl_cons]
    rw [Option.some_bind, hc, Option.map_none']
    exact foldl_step_none _ (fun i => rfl) _
  exact ⟨hc _ _, hloss alphaCorr, hloss 0⟩

/-- C10 witness: the concrete one-frame state with an empty correspondence
list makes loss_translation undefined even at alpha_corr = 0. -/
theorem loss_translation_empty_correspondences_witness :
    numCorresp lossWitState.correspondences = 0 ∧ 0 < lossWitState.numFrames ∧
    loss_translation realZeroCodec zeroFrameCost zeroFrameCost lossWitState
      ⟨0, 0, 0⟩ 1 1 0 = none :=
  ⟨rfl, by norm_num [lossWitState],
   (loss_translation_empty_correspondences realZeroCodec zeroFrameCost
     zeroFrameCost lossWitState ⟨0, 0, 0⟩ 1 1 1 rfl
     (by norm_num [lossWitState])).2.2⟩

theorem convScenario_sigma : convSigma convScenario 2 false 0 = 2 := rfl

theorem convScenario_pyInt : pyInt (convSigma convScenario 2 false 0) = 2 := by
  rw [convScenario_sigma, pyInt, if_neg (by norm_num)]
  norm_num

theorem convScenario_wx : windowX convScenario.imgW 10 2 = Finset.Icc 4 16 := by
  norm_num [windowX, convScenario]

theorem convScenario_wy : windowY convScenario.imgH 10 2 = Finset.Icc 4 16 := by
  norm_num [windowY, convScenario]

theorem convScenario_filter_ne :
    ((Finset.Icc (4:ℤ) 16) ×ˢ (Finset.Icc (4:ℤ) 16)).filter
      (fun q : ℤ × ℤ => convScenario.edgeScore q.2 q.1 ≠ 0) = {((10:ℤ), (10:ℤ))} := by
  ext ⟨qx, qy⟩
  simp only [Finset.mem_filter, Finset.mem_singleton, Finset.mem_product,
    Finset.mem_Icc, Prod.mk.injEq, convScenario]
  constructor
  · rintro ⟨⟨hx, hy⟩, hpred⟩
    by_cases h : qy = 10 ∧ qx = 10
    · exact ⟨h.2, h.1⟩
    · rw [if_neg h] at hpred
      exact absurd rfl hpred
  · rintro ⟨rfl, rfl⟩
    norm_num

theorem convScenario_filter_pos :
    ((Finset.Icc (4:ℤ) 16) ×ˢ (Finset.Icc (4:ℤ) 16)).filter
      (fun q : ℤ × ℤ => 0 < convPatchVal convScenario 0 q) = {((10:ℤ), (10:ℤ))} := by
  ext ⟨qx, qy⟩
  simp only [Finset.mem_filter, Finset.mem_singleton, Finset.mem_product,
    Finset.mem_Icc, Prod.mk.injEq, convPatchVal, convScenario]
  constructor
  · rintro ⟨⟨hx, hy⟩, hpred⟩
    by_cases h : qy = 10 ∧ qx = 10
    · exact ⟨h.2, h.1⟩
    · rw [if_neg h] at hpred
      exact absurd hpred (by norm_num)
  · rintro ⟨rfl, rfl⟩
    norm_num

theorem convScenario_nnz : convNumNonzeros convScenario 2 false 0 = 1 := by
  have hpix : convScenario.projPix 0 = (10, 10) := rfl
  rw [convNumNonzeros, hpix, convScenario_pyInt]
  rw [show ((10:ℤ), (10:ℤ)).1 = 10 from rfl, show ((10:ℤ), (10:ℤ)).2 = 10 from rfl]
  rw [convScenario_wx, convScenario_wy, convScenario_filter_ne]
  rfl

theorem convScenario_npos : convNumPos convScenario 2 false 0 = 1 := by
  have hpix : convScenario.projPix 0 = (10, 10) := rfl
  rw [convNumPos, hpix, convScenario_pyInt]
  rw [show ((10:ℤ), (10:ℤ)).1 = 10 from rfl, show ((10:ℤ), (10:ℤ)).2 = 10 from rfl]
  rw [convScenario_wx, convScenario_wy, convScenario_filter_pos]
  rfl

theorem pyInt_two : pyInt (2 : ℚ) = 2 := by
  rw [pyInt, if_neg (by norm_num)]
  norm_num

theorem gaussKernel_center :
    gaussKernel (2 : ℝ) 0 0 = 1 / (2 * Real.sqrt (2 * Real.pi)) := by
  rw [gaussKernel, if_pos (by norm_num)]
  norm_num [Real.exp_zero]

theorem convScenario_patchsum :
    Finset.sum ((Finset.Icc (4:ℤ) 16) ×ˢ (Finset.Icc (4:ℤ) 16))
      (fun q : ℤ × ℤ => (convPatchVal convScenario 0 q : ℝ) *
        gaussKernel (((2 : ℚ) : ℝ)) (q.1 - 10) (q.2 - 10)) =
      2 * (1 / (2 * Real.sqrt (2 * Real.pi))) := by
  rw [Finset.sum_eq_single_of_mem ((10:ℤ), (10:ℤ)) (by decide)]
  · have hpv : convPatchVal convScenario 0 ((10:ℤ), (10:ℤ)) = 2 := by
      norm_num [convPatchVal, convScenario]
    rw [hpv]
    push_cast
    rw [gaussKernel_center]
  · intro b hb hne
    obtain ⟨bx, byy⟩ := b
    have hcond : ¬(byy = 10 ∧ bx = 10) := by
      rintro ⟨h2, h1⟩
      subst h1
      subst h2
      exact hne rfl
    have hz : convPatchVal convScenario 0 (bx, byy) = 0 := by
      simp only [convPatchVal, convScenario]
      rw [if_neg hcond]
      norm_num
    rw [hz]
    norm_num

theorem convScenario_pointValue :
    convPointValue convScenario 2 false 0 = 1 / (2 * Real.sqrt (2 * Real.pi)) := by
  have hpix : convScenario.projPix 0 = (10, 10) := rfl
  simp only [convPointValue, hpix, convScenario_sigma, pyInt_two,
    convScenario_npos]
  rw [convScenario_wx, convScenario_wy, convScenario_patchsum, Nat.cast_one]
  ring

theorem convScenario_costMap :
    convCostMap convScenario 2 false =
      Function.update (fun _ : ℤ × ℤ => (0:ℝ)) ((10:ℤ), (10:ℤ))
        (convPointValue convScenario 2 false 0) := by
  rw [convCostMap]
  rw [show convScenario.pcsEdgeIdxs = [0] from rfl]
  rw [List.foldl_cons, List.foldl_nil]
  rw [if_pos (show convScenario.projMask 0 = true from rfl),
    if_neg (show ¬ convNumNonzeros convScenario 2 false 0 = 0 by
      rw [convScenario_nnz]; norm_num)]
  rfl

set_option maxRecDepth 8192 in
theorem convScenarioCost_eq :
    compute_conv_cost convScenario 2 false =
      -(1 / (2 * Real.sqrt (2 * Real.pi))) := by
  rw [compute_conv_cost, convScenario_costMap]
  rw [show ((convScenario.imgW : ℤ) - 1) = 99 by
      rw [show convScenario.imgW = 100 from rfl]; norm_num,
    show ((convScenario.imgH : ℤ) - 1) = 99 by
      rw [show convScenario.imgH = 100 from rfl]; norm_num]
  rw [Finset.sum_eq_single_of_mem ((10:ℤ), (10:ℤ))
    (by norm_num [Finset.mem_product, Finset.mem_Icc])]
  · rw [Function.update_same, convScenario_pointValue]
  · intro b hb hne
    rw [Function.update_noteq hne]

/-- C4 counterexample: on the single-point input of the spec scenario —
one in-frustum lidar edge point at pixel (10,10) with pc score 1, sigma 2
without distance scaling, image edge mask with the single pixel (10,10) at
score 1 — compute_conv_cost returns -(1/(sigma sqrt(2 pi))), which differs
from the claimed -(1/(sigma sqrt(2 pi)))/2 = -0.0997. -/
theorem compute_conv_cost_single_point_counterexample :
    compute_conv_cost convScenario 2 false =
      -(1 / (2 * Real.sqrt (2 * Real.pi))) ∧
    compute_conv_cost convScenario 2 false ≠
      -((1 / (2 * Real.sqrt (2 * Real.pi))) / 2) := by
  refine ⟨convScenarioCost_eq, ?_⟩
  rw [convScenarioCost_eq]
  intro h
  have hv : 0 < 1 / (2 * Real.sqrt (2 * Real.pi)) := by positivity
  have h2 : (1 / (2 * Real.sqrt (2 * Real.pi))) =
      (1 / (2 * Real.sqrt (2 * Real.pi))) / 2 := by linarith
  linarith

/-- C4 amended: on the single-point scenario compute_conv_cost returns
-(1/(sigma sqrt(2 pi))) = -0.1995 to four digits: the division by
2 |Omega| is applied exactly once to the summed (w_i + w_j) G — matching
w_ij = 0.5 (w_i + w_j)/|Omega| summed over Omega — with no further
division afterwards. -/
theorem compute_conv_cost_single_point_value :
    compute_conv_cost convScenario 2 false =
      -(1 / (2 * Real.sqrt (2 * Real.pi))) ∧
    -(0.1995 : ℝ) < compute_conv_cost convScenario 2 false ∧
    compute_conv_cost convScenario 2 false < -(0.1994 : ℝ) := by
  have hlo : (2.5066 : ℝ) < Real.sqrt (2 * Real.pi) := by
    have h1 : Real.sqrt ((2.5066 : ℝ)^2) < Real.sqrt (2 * Real.pi) :=
      Real.sqrt_lt_sqrt (by positivity) (by nlinarith [Real.pi_gt_3141592])
    rwa [Real.sqrt_sq (by norm_num : (0:ℝ) ≤ 2.5066)] at h1
  have hhi : Real.sqrt (2 * Real.pi) < (2.5067 : ℝ) := by
    have h1 : Real.sqrt (2 * Real.pi) < Real.sqrt ((2.5067 : ℝ)^2) :=
      Real.sqrt_lt_sqrt (by positivity) (by nlinarith [Real.pi_lt_3141593])
    rwa [Real.sqrt_sq (by norm_num : (0:ℝ) ≤ 2.5067)] at h1
  refine ⟨convScenarioCost_eq, ?_, ?_⟩
  · rw [convScenarioCost_eq]
    have hu : 1 / (2 * Real.sqrt (2 * Real.pi)) < 0.1995 := by
      rw [div_lt_iff (by positivity)]
      nlinarith
    linarith
  · rw [convScenarioCost_eq]
    have hl : (0.1994 : ℝ) < 1 / (2 * Real.sqrt (2 * Real.pi)) := by
      rw [lt_div_iff (by positivity)]
      nlinarith
    linarith
